import Mathlib

/-!
Verification of the per-session state machine and temporal accounting of the
eye-tracking service (`src/python_services/eye_tracking_service.py`).

The embedding translates the session-mutating core of the source: the
`ClientSession` record, the gaze classifier `analyze_gaze`, the smoother and
time accountant `update_focus_state`, the lifecycle operations
`start_session` / `process_frame` / `stop_session`, and the metrics query
`get_session_metrics`.  Timestamps (`time.time()` readings) are modelled as
rationals; a `time.time()` value is always strictly positive, so Python's
truthiness test on a timestamp field coincides with the field being present,
which we model with `Option`.  Python floats are modelled as exact rationals.
The HTTP plumbing, image decoding and frame annotation are outside the
modelled core; a frame-processing call that fails to decode mutates nothing
and is therefore not an operation of the model.
-/

namespace EyeTrack

/-- Lifecycle states; the source stores them as the strings "idle",
"countdown", "tracking", "stopped" in `session.tracking_state`. -/
inductive TrackingState
  | idle
  | countdown
  | tracking
  | stopped
deriving DecidableEq

/-- The fields of `ClientSession.__init__` (source lines 37-56) that the state
machine and the temporal accounting read or write.  Omitted fields:
`user_id`, `module_id`, `section_id` (opaque identifiers never branched on),
`latest_annotated_frame` (presentation only), and the per-session constants
`focus_history_size = 15` and `countdown_duration = 2`, modelled as the
top-level constants below (the source never mutates them). -/
structure ClientSession where
  is_tracking : Bool
  is_focused : Bool
  session_start_time : Option ℚ
  accumulated_focused_time : ℚ
  accumulated_unfocused_time : ℚ
  last_frame_time : ℚ
  focus_history : List Bool
  current_focus_session_start : Option ℚ
  current_unfocus_session_start : Option ℚ
  frames_processed : Nat
  countdown_active : Bool
  countdown_start_time : Option ℚ
  tracking_state : TrackingState
deriving DecidableEq

/-- `self.focus_history_size = 15` (line 48). -/
def focus_history_size : Nat := 15

/-- `self.countdown_duration = 2` (line 54). -/
def countdown_duration : ℚ := 2

/-- `ClientSession.__init__` (lines 37-56): the fresh session created by
`get_or_create_session`; `now` is the `time.time()` stored into
`last_frame_time` at construction. -/
def ClientSession.init (now : ℚ) : ClientSession :=
  { is_tracking := false
    is_focused := false
    session_start_time := none
    accumulated_focused_time := 0
    accumulated_unfocused_time := 0
    last_frame_time := now
    focus_history := []
    current_focus_session_start := none
    current_unfocus_session_start := none
    frames_processed := 0
    countdown_active := false
    countdown_start_time := none
    tracking_state := .idle }

/-- Lines 248-250 of `update_focus_state`: `focus_history.append(x)` followed
by `pop(0)` when the length exceeds `focus_history_size`. -/
def appendHistory (h : List Bool) (x : Bool) : List Bool :=
  let h1 := h ++ [x]
  if focus_history_size < h1.length then h1.drop 1 else h1

/-- `np.linspace 0.5 1.0 n` (line 252): `n` evenly spaced weights from 0.5 to
1.0; numpy returns `[0.5]` for `n = 1` and `[]` for `n = 0`. -/
def linWeights : Nat → List ℚ
  | 0 => []
  | 1 => [1/2]
  | Nat.succ (Nat.succ m) =>
      (List.range (m + 2)).map (fun i => 1/2 + (1/2) * (i : ℚ) / (m + 1))

/-- `np.average(history, weights)` (line 253): `sum (w * x) / sum w`, booleans
read as 0/1.  The source never evaluates this on an empty history (the append
on line 248 precedes it); on `[]` this definition returns 0 where numpy would
raise. -/
def weightedAverage (h : List Bool) : ℚ :=
  let w := linWeights h.length
  (List.zipWith (fun wi b => wi * (if b then (1 : ℚ) else 0)) w h).sum / w.sum

/-- `EyeTrackingService.update_focus_state` (lines 246-270): append the raw
per-frame decision to the bounded history, recompute the weighted smoothed
state (`weighted average > 0.6`, line 254), and when the smoothed state
differs from the stored one, close the open interval into its accumulator and
open the opposite interval.  `now` is the single `time.time()` read on line
256. -/
def update_focus_state (session : ClientSession) (is_focused_now : Bool)
    (now : ℚ) : ClientSession :=
  let hist := appendHistory session.focus_history is_focused_now
  let smoothed_focus : Bool := decide (weightedAverage hist > 3/5)
  let s := { session with focus_history := hist }
  if smoothed_focus ≠ s.is_focused then
    if s.is_focused then
      let s1 :=
        match s.current_focus_session_start with
        | some a =>
            { s with
              accumulated_focused_time := s.accumulated_focused_time + (now - a)
              current_focus_session_start := none }
        | none => s
      { s1 with
        current_unfocus_session_start := some now
        is_focused := smoothed_focus }
    else
      let s1 :=
        match s.current_unfocus_session_start with
        | some a =>
            { s with
              accumulated_unfocused_time :=
                s.accumulated_unfocused_time + (now - a)
              current_unfocus_session_start := none }
        | none => s
      { s1 with
        current_focus_session_start := some now
        is_focused := smoothed_focus }
  else s

/-- Session mutation performed by `EyeTrackingService.process_frame` (lines
161-214) on a successfully decoded frame: stamp activity and bump the frame
counter (lines 172-173), complete the countdown when its duration has elapsed
(lines 176-183), then, when tracking, run the smoother on this frame's raw
gaze decision (lines 189-191).  `raw` is the boolean `analyze_gaze` returned
for this frame; the several `time.time()` reads in the body are modelled by
the single instant `now`.  The source's countdown arithmetic would fault if
`countdown_start_time` were absent while `countdown_active` holds; the source
always sets the two together (lines 323-324), and the model leaves the
session unchanged in that unreachable case. -/
def process_frame_update (session : ClientSession) (raw : Bool) (now : ℚ) :
    ClientSession :=
  let s := { session with
             last_frame_time := now
             frames_processed := session.frames_processed + 1 }
  let s :=
    if s.countdown_active then
      match s.countdown_start_time with
      | some cst =>
          if countdown_duration ≤ now - cst then
            { s with
              countdown_active := false
              is_tracking := true
              tracking_state := .tracking
              session_start_time := some now }
          else s
      | none => s
    else s
  if s.is_tracking then update_focus_state s raw now else s

/-- Session re-arm performed by `EyeTrackingService.start_session` (lines
323-328) on the session returned by `get_or_create_session`: enter Countdown
at `now` and reset the two accumulators and the raw-focus history.  The
remaining fields — the open-interval starts, `is_focused`, `is_tracking`,
`session_start_time`, the frame counter — are left untouched by the source. -/
def start_session_update (session : ClientSession) (now : ℚ) : ClientSession :=
  { session with
    countdown_active := true
    countdown_start_time := some now
    tracking_state := .countdown
    accumulated_focused_time := 0
    accumulated_unfocused_time := 0
    focus_history := [] }

/-- Session mutation performed by `EyeTrackingService.stop_session` (lines
336-339): clear the tracking and countdown flags and enter the terminal
string state.  The accumulators and the open-interval start fields are not
touched by the source. -/
def stop_session_update (session : ClientSession) : ClientSession :=
  { session with
    is_tracking := false
    countdown_active := false
    tracking_state := .stopped }

/-- Effective focused seconds as computed by `get_session_metrics` (lines
299-303): the accumulator plus the open focus interval's elapsed time. -/
def effectiveFocused (session : ClientSession) (now : ℚ) : ℚ :=
  session.accumulated_focused_time +
    match session.current_focus_session_start with
    | some a => now - a
    | none => 0

/-- Effective unfocused seconds as computed by `get_session_metrics` (lines
300-305): the accumulator plus the open unfocus interval's elapsed time. -/
def effectiveUnfocused (session : ClientSession) (now : ℚ) : ℚ :=
  session.accumulated_unfocused_time +
    match session.current_unfocus_session_start with
    | some a => now - a
    | none => 0

/-- `total = focused + unfocused` of the metrics query (line 307). -/
def effectiveTotal (session : ClientSession) (now : ℚ) : ℚ :=
  effectiveFocused session now + effectiveUnfocused session now

/-- Metrics dictionary returned by `get_session_metrics` (lines 310-317).
`current_state_focused` models the `'focused'`/`'unfocused'` string. -/
structure Metrics where
  focused_time : ℚ
  unfocused_time : ℚ
  total_time : ℚ
  focus_percentage : ℚ
  frames_processed : Nat
  current_state_focused : Bool
deriving DecidableEq

/-- `EyeTrackingService.get_session_metrics` (lines 295-317).  Pure: it reads
the session and mutates nothing.  The source rounds the four float fields to
one decimal for display; the rounding is presentation-only and modelled
away. -/
def get_session_metrics (session : ClientSession) (now : ℚ) : Metrics :=
  let focused := effectiveFocused session now
  let unfocused := effectiveUnfocused session now
  let total := focused + unfocused
  { focused_time := focused
    unfocused_time := unfocused
    total_time := total
    focus_percentage := if 0 < total then focused / total * 100 else 0
    frames_processed := session.frames_processed
    current_state_focused := session.is_focused }

/-- `EyeTrackingService.analyze_gaze` (lines 216-241), the deterministic core
for a frame the tracker processed without exception: inputs are the gaze
collaborator's readings for this frame (pupils-located flag, optional
horizontal and vertical ratios, blink flag) and `rand`, the sample drawn by
`np.random.random()` for the soft boundary zone.  The source's fallback
branches (no tracker object, or an exception in the collaborator) are outside
the zone policy. -/
def analyze_gaze (pupils_located : Bool) (hr vr : Option ℚ) (blinking : Bool)
    (rand : ℚ) : Bool :=
  if pupils_located then
    if blinking then false
    else
      match hr, vr with
      | some h, some v =>
          let h_distance := |h - 1/2|
          let v_distance := |v - 1/2|
          if h_distance < 1/5 ∧ v_distance < 1/5 then true
          else if h_distance < 3/10 ∧ v_distance < 3/10 then
            decide (rand > 3/10)
          else false
      | _, _ => false
  else false

/-- Modelled from the spec (§4.2 FocusClassifier), for comparison with
`analyze_gaze`: pupils not located or a ratio unavailable means not focused;
blinking means not focused; otherwise both distances below 0.2 means focused,
both below 0.3 means focused iff the drawn uniform sample exceeds 0.3, and
anything else means not focused. -/
def classifierSpec (pupils_located : Bool) (hr vr : Option ℚ) (blinking : Bool)
    (rand : ℚ) : Bool :=
  if pupils_located = false ∨ hr = none ∨ vr = none then false
  else if blinking then false
  else
    match hr, vr with
    | some h, some v =>
        if |h - 1/2| < 1/5 ∧ |v - 1/2| < 1/5 then true
        else if |h - 1/2| < 3/10 ∧ |v - 1/2| < 3/10 then decide (rand > 3/10)
        else false
    | _, _ => false

/-- One caller-visible operation on a fixed session id, as dispatched by the
HTTP handlers: `start_session`, `process_frame` on a successfully decoded
frame (with the `analyze_gaze` outcome for that frame), `stop_session`, or
the read-only status/metrics query. -/
inductive Op
  | start (now : ℚ)
  | frame (now : ℚ) (raw : Bool)
  | stop
  | status
deriving DecidableEq

/-- Effect of one operation on the registry entry for the fixed session id
(`none` = absent).  `start` creates the session when absent
(`get_or_create_session`, lines 129-138, with owner and content supplied) and
then re-arms it; `frame` and `stop` mutate an existing entry and return a
not-found error on an absent one; `stop` keeps the session in the registry
(`stop_session` never deletes, lines 333-343); `status` reads only. -/
def applyOp (entry : Option ClientSession) : Op → Option ClientSession
  | .start now => some (start_session_update (entry.getD (ClientSession.init now)) now)
  | .frame now raw => entry.map (fun s => process_frame_update s raw now)
  | .stop => entry.map stop_session_update
  | .status => entry

/-- Registry entry for the session id after a sequence of operations, starting
from an empty registry. -/
def runOps (ops : List Op) : Option ClientSession :=
  ops.foldl applyOp none

/-- Registry entry after a sequence of operations applied to an existing
session. -/
def runOpsFrom (s : ClientSession) (ops : List Op) : Option ClientSession :=
  ops.foldl applyOp (some s)

/-- Result of `EyeTrackingService.stop_session` (lines 333-343) on the entry:
the final metrics snapshot when the session exists (taken after the flag
mutation), `None` — reported to the caller as not found — otherwise. -/
def stop_session_result (entry : Option ClientSession) (now : ℚ) :
    Option Metrics :=
  entry.map (fun s => get_session_metrics (stop_session_update s) now)

/-- Correlation the transition code of `update_focus_state` maintains between
the stored smoothed flag and the open-interval fields: a focused session has
no open unfocus interval and an unfocused session has no open focus
interval. -/
def goodIntervals (s : ClientSession) : Prop :=
  (s.is_focused = true → s.current_unfocus_session_start = none) ∧
  (s.is_focused = false → s.current_focus_session_start = none)

instance (s : ClientSession) : Decidable (goodIntervals s) := by
  unfold goodIntervals; infer_instance

/-- Some interval (focus or unfocus) is currently open. -/
def hasOpen (s : ClientSession) : Prop :=
  s.current_focus_session_start ≠ none ∨ s.current_unfocus_session_start ≠ none

instance (s : ClientSession) : Decidable (hasOpen s) := by
  unfold hasOpen; infer_instance

/-- A stopped session has its countdown and tracking flags cleared, as
`stop_session` leaves it. -/
def stoppedInert (s : ClientSession) : Prop :=
  s.tracking_state = .stopped → s.countdown_active = false ∧ s.is_tracking = false

instance (s : ClientSession) : Decidable (stoppedInert s) := by
  unfold stoppedInert; infer_instance

/-- An active countdown only exists in the Countdown state, as `start_session`
arms it. -/
def activeCountdown (s : ClientSession) : Prop :=
  s.countdown_active = true → s.tracking_state = .countdown

instance (s : ClientSession) : Decidable (activeCountdown s) := by
  unfold activeCountdown; infer_instance

/-- Combined state invariant maintained by every operation. -/
def Inv (s : ClientSession) : Prop :=
  goodIntervals s ∧ stoppedInert s ∧ activeCountdown s ∧
    s.focus_history.length ≤ focus_history_size

instance (s : ClientSession) : Decidable (Inv s) := by
  unfold Inv; infer_instance

/-- Time stamps of open intervals are at or before `now`; holds for every
reachable session queried at the current wall-clock time, since intervals are
opened at past `time.time()` readings. -/
def openBefore (o : Option ℚ) (now : ℚ) : Prop :=
  match o with
  | some a => a ≤ now
  | none => True

instance (o : Option ℚ) (now : ℚ) : Decidable (openBefore o now) :=
  match o with
  | some a => inferInstanceAs (Decidable (a ≤ now))
  | none => isTrue trivial

/-- Session state produced by the trace start(1), frame(4, raw = true): the
countdown completed on that frame, tracking became active at time 4, the
single-entry history made the smoothed state focused, and a focus interval
opened at time 4 with both accumulators still zero. -/
def sessionOpenFocus : ClientSession :=
  { is_tracking := true
    is_focused := true
    session_start_time := some 4
    accumulated_focused_time := 0
    accumulated_unfocused_time := 0
    last_frame_time := 4
    focus_history := [true]
    current_focus_session_start := some 4
    current_unfocus_session_start := none
    frames_processed := 1
    countdown_active := false
    countdown_start_time := some 1
    tracking_state := .tracking }

/-- Session state produced by continuing `sessionOpenFocus` with
frame(6, raw = false) and then stop: 2 focused seconds were accumulated, the
unfocus interval opened at 6 is still open, and the session is stopped. -/
def sessionStopped : ClientSession :=
  { is_tracking := false
    is_focused := false
    session_start_time := some 4
    accumulated_focused_time := 2
    accumulated_unfocused_time := 0
    last_frame_time := 6
    focus_history := [true, false]
    current_focus_session_start := none
    current_unfocus_session_start := some 6
    frames_processed := 2
    countdown_active := false
    countdown_start_time := some 1
    tracking_state := .stopped }

section UpdateFocusLemmas

lemma appendHistory_length_le {h : List Bool} (hh : h.length ≤ focus_history_size)
    (x : Bool) : (appendHistory h x).length ≤ focus_history_size := by
  unfold appendHistory focus_history_size at *
  dsimp only
  split
  · simp only [List.length_drop, List.length_append, List.length_singleton]
    omega
  · next hlt =>
    simp only [not_lt, List.length_append, List.length_singleton] at hlt
    simpa using hlt

lemma update_focus_state_lifecycle (s : ClientSession) (r : Bool) (t : ℚ) :
    (update_focus_state s r t).tracking_state = s.tracking_state ∧
    (update_focus_state s r t).countdown_active = s.countdown_active ∧
    (update_focus_state s r t).is_tracking = s.is_tracking ∧
    (update_focus_state s r t).session_start_time = s.session_start_time ∧
    (update_focus_state s r t).countdown_start_time = s.countdown_start_time ∧
    (update_focus_state s r t).focus_history = appendHistory s.focus_history r := by
  unfold update_focus_state
  dsimp only
  split
  · split
    · split <;> simp
    · split <;> simp
  · simp

lemma update_focus_state_is_focused (s : ClientSession) (r : Bool) (t : ℚ) :
    (update_focus_state s r t).is_focused =
      decide (weightedAverage (appendHistory s.focus_history r) > 3/5) := by
  unfold update_focus_state
  dsimp only
  split
  · split
    · split <;> simp
    · split <;> simp
  · next h =>
    simp only [ne_eq, not_not] at h
    simpa using h.symm

lemma update_focus_state_goodIntervals {s : ClientSession} (hg : goodIntervals s)
    (r : Bool) (t : ℚ) : goodIntervals (update_focus_state s r t) := by
  obtain ⟨h1, h2⟩ := hg
  unfold update_focus_state
  dsimp only
  split
  · next hne =>
    split
    · next hf =>
      have hsm : decide (weightedAverage (appendHistory s.focus_history r) > 3/5) = false := by
        revert hne hf
        cases decide (weightedAverage (appendHistory s.focus_history r) > 3/5) <;>
          cases s.is_focused <;> simp
      split <;> simp_all [goodIntervals, hsm]
    · next hf =>
      have hsm : decide (weightedAverage (appendHistory s.focus_history r) > 3/5) = true := by
        revert hne hf
        cases decide (weightedAverage (appendHistory s.focus_history r) > 3/5) <;>
          cases s.is_focused <;> simp
      split <;> simp_all [goodIntervals, hsm]
  · exact ⟨h1, h2⟩

lemma update_focus_state_hasOpen {s : ClientSession} (ho : hasOpen s)
    (r : Bool) (t : ℚ) : hasOpen (update_focus_state s r t) := by
  obtain ho := ho
  unfold update_focus_state
  dsimp only
  split
  · split
    · split <;> simp [hasOpen]
    · split <;> simp [hasOpen]
  · exact ho

end UpdateFocusLemmas

lemma ufs_tracking_state (s : ClientSession) (r : Bool) (t : ℚ) :
    (update_focus_state s r t).tracking_state = s.tracking_state :=
  (update_focus_state_lifecycle s r t).1

lemma ufs_countdown_active (s : ClientSession) (r : Bool) (t : ℚ) :
    (update_focus_state s r t).countdown_active = s.countdown_active :=
  (update_focus_state_lifecycle s r t).2.1

lemma ufs_is_tracking (s : ClientSession) (r : Bool) (t : ℚ) :
    (update_focus_state s r t).is_tracking = s.is_tracking :=
  (update_focus_state_lifecycle s r t).2.2.1

lemma ufs_session_start_time (s : ClientSession) (r : Bool) (t : ℚ) :
    (update_focus_state s r t).session_start_time = s.session_start_time :=
  (update_focus_state_lifecycle s r t).2.2.2.1

lemma ufs_focus_history (s : ClientSession) (r : Bool) (t : ℚ) :
    (update_focus_state s r t).focus_history = appendHistory s.focus_history r :=
  (update_focus_state_lifecycle s r t).2.2.2.2.2

lemma update_focus_state_effectiveTotal {s : ClientSession} (hg : goodIntervals s)
    (ho : hasOpen s) (r : Bool) (t q : ℚ) :
    effectiveTotal (update_focus_state s r t) q = effectiveTotal s q := by
  obtain ⟨h1, h2⟩ := hg
  unfold update_focus_state
  dsimp only
  split
  · split
    · next hf =>
      have hu : s.current_unfocus_session_start = none := h1 hf
      split
      · next a heq =>
        simp only [effectiveTotal, effectiveFocused, effectiveUnfocused, heq, hu]
        ring
      · next heq =>
        exact absurd (Or.elim ho (fun hc => absurd heq hc) (fun hc => absurd hu hc))
          (fun hc => hc)
    · next hf =>
      have hb : s.is_focused = false := by revert hf; cases s.is_focused <;> simp
      have hfo : s.current_focus_session_start = none := h2 hb
      split
      · next a heq =>
        simp only [effectiveTotal, effectiveFocused, effectiveUnfocused, heq, hfo]
        ring
      · next heq =>
        exact absurd (Or.elim ho (fun hc => absurd hfo hc) (fun hc => absurd heq hc))
          (fun hc => hc)
  · rfl

lemma update_focus_state_acc_mono {s : ClientSession} (t : ℚ)
    (hf : openBefore s.current_focus_session_start t)
    (hu : openBefore s.current_unfocus_session_start t) (r : Bool) :
    s.accumulated_focused_time ≤ (update_focus_state s r t).accumulated_focused_time ∧
    s.accumulated_unfocused_time ≤ (update_focus_state s r t).accumulated_unfocused_time := by
  unfold update_focus_state
  dsimp only
  split
  · split
    · split
      · next a heq =>
        rw [heq] at hf
        have ha : a ≤ t := hf
        constructor
        · dsimp only; linarith
        · exact le_rfl
      · exact ⟨le_rfl, le_rfl⟩
    · split
      · next a heq =>
        rw [heq] at hu
        have ha : a ≤ t := hu
        constructor
        · exact le_rfl
        · dsimp only; linarith
      · exact ⟨le_rfl, le_rfl⟩
  · exact ⟨le_rfl, le_rfl⟩

section ProcessFrameLemmas

/-- Characterization of `process_frame_update`: the countdown step yields an
intermediate session `s1` that agrees with `s` on every field the smoother
and the accountant read, after which the smoother runs iff `s1` is
tracking. -/
lemma process_frame_update_cases (s : ClientSession) (r : Bool) (t : ℚ) :
    ∃ s1 : ClientSession,
      process_frame_update s r t =
        (if s1.is_tracking then update_focus_state s1 r t else s1) ∧
      s1.is_focused = s.is_focused ∧
      s1.current_focus_session_start = s.current_focus_session_start ∧
      s1.current_unfocus_session_start = s.current_unfocus_session_start ∧
      s1.accumulated_focused_time = s.accumulated_focused_time ∧
      s1.accumulated_unfocused_time = s.accumulated_unfocused_time ∧
      s1.focus_history = s.focus_history ∧
      (s1.tracking_state = s.tracking_state ∨
        (s1.tracking_state = .tracking ∧ s.countdown_active = true)) ∧
      ((s1.tracking_state = s.tracking_state ∧
          s1.countdown_active = s.countdown_active ∧
          s1.is_tracking = s.is_tracking) ∨
        (s1.tracking_state = .tracking ∧ s1.countdown_active = false)) := by
  by_cases hca : s.countdown_active = true
  · cases hcst : s.countdown_start_time with
    | none =>
        refine ⟨{ s with last_frame_time := t,
                         frames_processed := s.frames_processed + 1 },
          ?_, rfl, rfl, rfl, rfl, rfl, rfl, Or.inl rfl, Or.inl ⟨rfl, rfl, rfl⟩⟩
        simp only [process_frame_update, hca, hcst, if_true]
    | some cst =>
        by_cases hel : countdown_duration ≤ t - cst
        · refine ⟨{ s with last_frame_time := t,
                           frames_processed := s.frames_processed + 1,
                           countdown_active := false,
                           is_tracking := true,
                           tracking_state := .tracking,
                           session_start_time := some t },
            ?_, rfl, rfl, rfl, rfl, rfl, rfl, Or.inr ⟨rfl, hca⟩,
            Or.inr ⟨rfl, rfl⟩⟩
          simp only [process_frame_update, hca, hcst, hel, if_true]
        · refine ⟨{ s with last_frame_time := t,
                           frames_processed := s.frames_processed + 1 },
            ?_, rfl, rfl, rfl, rfl, rfl, rfl, Or.inl rfl,
            Or.inl ⟨rfl, rfl, rfl⟩⟩
          simp only [process_frame_update, hca, hcst, hel, if_true, if_false]
  · refine ⟨{ s with last_frame_time := t,
                     frames_processed := s.frames_processed + 1 },
      ?_, rfl, rfl, rfl, rfl, rfl, rfl, Or.inl rfl, Or.inl ⟨rfl, rfl, rfl⟩⟩
    simp only [process_frame_update, hca, Bool.false_eq_true, if_false]

lemma goodIntervals_congr {s1 s : ClientSession}
    (h1 : s1.is_focused = s.is_focused)
    (h2 : s1.current_focus_session_start = s.current_focus_session_start)
    (h3 : s1.current_unfocus_session_start = s.current_unfocus_session_start)
    (hg : goodIntervals s) : goodIntervals s1 := by
  unfold goodIntervals at *
  rw [h1, h2, h3]
  exact hg

lemma hasOpen_congr {s1 s : ClientSession}
    (h2 : s1.current_focus_session_start = s.current_focus_session_start)
    (h3 : s1.current_unfocus_session_start = s.current_unfocus_session_start)
    (ho : hasOpen s) : hasOpen s1 := by
  unfold hasOpen at *
  rw [h2, h3]
  exact ho

lemma effectiveTotal_congr {s1 s : ClientSession}
    (h2 : s1.current_focus_session_start = s.current_focus_session_start)
    (h3 : s1.current_unfocus_session_start = s.current_unfocus_session_start)
    (h4 : s1.accumulated_focused_time = s.accumulated_focused_time)
    (h5 : s1.accumulated_unfocused_time = s.accumulated_unfocused_time)
    (q : ℚ) : effectiveTotal s1 q = effectiveTotal s q := by
  unfold effectiveTotal effectiveFocused effectiveUnfocused
  rw [h2, h3, h4, h5]

lemma process_frame_update_goodIntervals {s : ClientSession} (hg : goodIntervals s)
    (r : Bool) (t : ℚ) : goodIntervals (process_frame_update s r t) := by
  obtain ⟨s1, heq, hif, hcf, hcu, _, _, _, _, _⟩ :=
    process_frame_update_cases s r t
  rw [heq]
  have hg1 : goodIntervals s1 := goodIntervals_congr hif hcf hcu hg
  split
  · exact update_focus_state_goodIntervals hg1 r t
  · exact hg1

lemma process_frame_update_hasOpen {s : ClientSession} (ho : hasOpen s)
    (r : Bool) (t : ℚ) : hasOpen (process_frame_update s r t) := by
  obtain ⟨s1, heq, _, hcf, hcu, _, _, _, _, _⟩ :=
    process_frame_update_cases s r t
  rw [heq]
  have ho1 : hasOpen s1 := hasOpen_congr hcf hcu ho
  split
  · exact update_focus_state_hasOpen ho1 r t
  · exact ho1

lemma process_frame_update_effectiveTotal {s : ClientSession}
    (hg : goodIntervals s) (ho : hasOpen s) (r : Bool) (t q : ℚ) :
    effectiveTotal (process_frame_update s r t) q = effectiveTotal s q := by
  obtain ⟨s1, heq, hif, hcf, hcu, haf, hau, _, _, _⟩ :=
    process_frame_update_cases s r t
  rw [heq]
  have hg1 : goodIntervals s1 := goodIntervals_congr hif hcf hcu hg
  have ho1 : hasOpen s1 := hasOpen_congr hcf hcu ho
  have hct : effectiveTotal s1 q = effectiveTotal s q :=
    effectiveTotal_congr hcf hcu haf hau q
  split
  · rw [update_focus_state_effectiveTotal hg1 ho1 r t q]
    exact hct
  · exact hct

lemma process_frame_update_acc_mono {s : ClientSession} (t : ℚ)
    (hf : openBefore s.current_focus_session_start t)
    (hu : openBefore s.current_unfocus_session_start t) (r : Bool) :
    s.accumulated_focused_time ≤ (process_frame_update s r t).accumulated_focused_time ∧
    s.accumulated_unfocused_time ≤ (process_frame_update s r t).accumulated_unfocused_time := by
  obtain ⟨s1, heq, _, hcf, hcu, haf, hau, _, _, _⟩ :=
    process_frame_update_cases s r t
  rw [heq]
  have hf1 : openBefore s1.current_focus_session_start t := by rw [hcf]; exact hf
  have hu1 : openBefore s1.current_unfocus_session_start t := by rw [hcu]; exact hu
  split
  · obtain ⟨m1, m2⟩ := update_focus_state_acc_mono t hf1 hu1 r
    rw [haf] at m1
    rw [hau] at m2
    exact ⟨m1, m2⟩
  · rw [haf, hau]
    exact ⟨le_rfl, le_rfl⟩

lemma process_frame_update_state (s : ClientSession) (r : Bool) (t : ℚ) :
    (process_frame_update s r t).tracking_state = s.tracking_state ∨
      ((process_frame_update s r t).tracking_state = .tracking ∧
        s.countdown_active = true) := by
  obtain ⟨s1, heq, _, _, _, _, _, _, hst, _⟩ :=
    process_frame_update_cases s r t
  rw [heq]
  have hres : (if s1.is_tracking then update_focus_state s1 r t
      else s1).tracking_state = s1.tracking_state := by
    split
    · exact ufs_tracking_state s1 r t
    · rfl
  rw [hres]
  exact hst

lemma process_frame_update_stopped {s : ClientSession} (hsi : stoppedInert s)
    (hstop : s.tracking_state = .stopped) (r : Bool) (t : ℚ) :
    (process_frame_update s r t).tracking_state = .stopped := by
  obtain ⟨s1, heq, _, _, _, _, _, _, hst, _⟩ :=
    process_frame_update_cases s r t
  rw [heq]
  have hs1 : s1.tracking_state = .stopped := by
    rcases hst with h | ⟨_, hca⟩
    · rw [h]; exact hstop
    · rw [(hsi hstop).1] at hca; exact Bool.noConfusion hca
  split
  · rw [ufs_tracking_state]; exact hs1
  · exact hs1

lemma final_step_Inv {s : ClientSession} (hg : goodIntervals s)
    (hsi : stoppedInert s) (hac : activeCountdown s)
    (hh : s.focus_history.length ≤ focus_history_size) (r : Bool) (t : ℚ) :
    Inv (if s.is_tracking then update_focus_state s r t else s) := by
  split
  · refine ⟨update_focus_state_goodIntervals hg r t, ?_, ?_, ?_⟩
    · intro hstop
      rw [ufs_tracking_state] at hstop
      obtain ⟨h1, h2⟩ := hsi hstop
      rw [ufs_countdown_active, ufs_is_tracking]
      exact ⟨h1, h2⟩
    · intro hcae
      rw [ufs_countdown_active] at hcae
      rw [ufs_tracking_state]
      exact hac hcae
    · rw [ufs_focus_history]
      exact appendHistory_length_le hh r
  · exact ⟨hg, hsi, hac, hh⟩

lemma process_frame_update_Inv {s : ClientSession} (hi : Inv s) (r : Bool)
    (t : ℚ) : Inv (process_frame_update s r t) := by
  obtain ⟨hg, hsi, hac, hh⟩ := hi
  obtain ⟨s1, heq, hif, hcf, hcu, _, _, hhist, _, hflags⟩ :=
    process_frame_update_cases s r t
  rw [heq]
  have hg1 : goodIntervals s1 := goodIntervals_congr hif hcf hcu hg
  have hh1 : s1.focus_history.length ≤ focus_history_size := by
    rw [hhist]; exact hh
  rcases hflags with ⟨f1, f2, f3⟩ | ⟨f1, f2⟩
  · refine final_step_Inv hg1 ?_ ?_ hh1 r t
    · intro hstop
      rw [f1] at hstop
      obtain ⟨g1, g2⟩ := hsi hstop
      rw [f2, f3]
      exact ⟨g1, g2⟩
    · intro hcae
      rw [f2] at hcae
      rw [f1]
      exact hac hcae
  · refine final_step_Inv hg1 ?_ ?_ hh1 r t
    · intro hstop
      rw [f1] at hstop
      exact TrackingState.noConfusion hstop
    · intro hcae
      rw [f2] at hcae
      exact Bool.noConfusion hcae

end ProcessFrameLemmas

lemma start_session_update_Inv {s : ClientSession} (hg : goodIntervals s)
    (now : ℚ) : Inv (start_session_update s now) :=
  ⟨⟨hg.1, hg.2⟩, fun h => TrackingState.noConfusion h, fun _ => rfl,
    Nat.zero_le _⟩

lemma stop_session_update_Inv {s : ClientSession} (hi : Inv s) :
    Inv (stop_session_update s) :=
  ⟨⟨hi.1.1, hi.1.2⟩, fun _ => ⟨rfl, rfl⟩, fun h => Bool.noConfusion h,
    hi.2.2.2⟩

lemma goodIntervals_init (now : ℚ) : goodIntervals (ClientSession.init now) :=
  ⟨fun _ => rfl, fun _ => rfl⟩

lemma applyOp_Inv {entry : Option ClientSession}
    (h : ∀ s, entry = some s → Inv s) (op : Op) (s' : ClientSession)
    (hs' : applyOp entry op = some s') : Inv s' := by
  cases op with
  | start now =>
    simp only [applyOp, Option.some.injEq] at hs'
    subst hs'
    apply start_session_update_Inv
    cases entry with
    | none => exact goodIntervals_init now
    | some s => exact (h s rfl).1
  | frame now raw =>
    cases entry with
    | none => simp [applyOp] at hs'
    | some s =>
      simp only [applyOp, Option.map_some', Option.some.injEq] at hs'
      subst hs'
      exact process_frame_update_Inv (h s rfl) raw now
  | stop =>
    cases entry with
    | none => simp [applyOp] at hs'
    | some s =>
      simp only [applyOp, Option.map_some', Option.some.injEq] at hs'
      subst hs'
      exact stop_session_update_Inv (h s rfl)
  | status => exact h s' hs'

lemma foldl_applyOp_Inv (ops : List Op) (entry : Option ClientSession)
    (h : ∀ s, entry = some s → Inv s) :
    ∀ s', ops.foldl applyOp entry = some s' → Inv s' := by
  induction ops generalizing entry with
  | nil => exact h
  | cons op rest ih =>
    exact ih (applyOp entry op) (fun s hs => applyOp_Inv h op s hs)

lemma runOps_Inv {ops : List Op} {s : ClientSession} (h : runOps ops = some s) :
    Inv s :=
  foldl_applyOp_Inv ops none (fun _ hs => Option.noConfusion hs) s h

lemma applyOp_nonstart_effectiveTotal {s s' : ClientSession} {op : Op}
    (hg : goodIntervals s) (ho : hasOpen s)
    (hns : ∀ t : ℚ, op ≠ Op.start t)
    (happ : applyOp (some s) op = some s') (q : ℚ) :
    effectiveTotal s' q = effectiveTotal s q ∧ goodIntervals s' ∧ hasOpen s' := by
  cases op with
  | start now => exact absurd rfl (hns now)
  | frame now raw =>
      simp only [applyOp, Option.map_some', Option.some.injEq] at happ
      subst happ
      exact ⟨process_frame_update_effectiveTotal hg ho raw now q,
        process_frame_update_goodIntervals hg raw now,
        process_frame_update_hasOpen ho raw now⟩
  | stop =>
      simp only [applyOp, Option.map_some', Option.some.injEq] at happ
      subst happ
      exact ⟨rfl, hg, ho⟩
  | status =>
      simp only [applyOp, Option.some.injEq] at happ
      subst happ
      exact ⟨rfl, hg, ho⟩

/-- Conservation of the effective total: once some interval is open, every
further non-start operation leaves `effectiveFocused + effectiveUnfocused`,
as a function of the query instant, unchanged. -/
lemma runOpsFrom_effectiveTotal {ops : List Op} {s s' : ClientSession} (q : ℚ)
    (hg : goodIntervals s) (ho : hasOpen s)
    (hns : ∀ t : ℚ, Op.start t ∉ ops)
    (hrun : runOpsFrom s ops = some s') :
    effectiveTotal s' q = effectiveTotal s q := by
  induction ops generalizing s with
  | nil =>
      unfold runOpsFrom at hrun
      simp only [List.foldl_nil, Option.some.injEq] at hrun
      subst hrun
      rfl
  | cons op rest ih =>
      have hop : ∀ t : ℚ, op ≠ Op.start t := by
        intro t h
        exact hns t (by rw [h]; exact List.mem_cons_self _ _)
      obtain ⟨s1, hs1⟩ : ∃ s1, applyOp (some s) op = some s1 := by
        cases op with
        | start now => exact ⟨_, rfl⟩
        | frame now raw => exact ⟨_, rfl⟩
        | stop => exact ⟨_, rfl⟩
        | status => exact ⟨_, rfl⟩
      have hrest : runOpsFrom s1 rest = some s' := by
        unfold runOpsFrom at hrun ⊢
        rw [List.foldl_cons, hs1] at hrun
        exact hrun
      obtain ⟨he, hg1, ho1⟩ := applyOp_nonstart_effectiveTotal hg ho hop hs1 q
      rw [ih hg1 ho1 (fun t ht => hns t (List.mem_cons_of_mem _ ht)) hrest, he]

/-- The bounded-history fold: feeding any boolean sequence into the
append-then-evict step keeps exactly the most recent `focus_history_size`
entries in order. -/
lemma foldl_appendHistory (rs : List Bool) :
    ∀ h : List Bool, h.length ≤ focus_history_size →
      List.foldl appendHistory h rs =
        (h ++ rs).drop ((h ++ rs).length - focus_history_size) := by
  induction rs with
  | nil =>
      intro h hh
      simp only [List.foldl_nil, List.append_nil]
      rw [Nat.sub_eq_zero_of_le hh, List.drop_zero]
  | cons r rs ih =>
      intro h hh
      simp only [List.foldl_cons]
      rw [ih (appendHistory h r) (appendHistory_length_le hh r)]
      by_cases hlen : focus_history_size < (h ++ [r]).length
      · have hdrop : appendHistory h r = (h ++ [r]).drop 1 := by
          unfold appendHistory
          dsimp only
          rw [if_pos hlen]
        have hstep : appendHistory h r ++ rs = (h ++ r :: rs).drop 1 := by
          rw [hdrop, ← List.drop_append_of_le_length (by simp)]
          simp
        rw [hstep, List.drop_drop]
        congr 1
        simp only [List.length_drop, List.length_append, List.length_cons,
          List.length_nil, List.length_singleton, focus_history_size] at hlen hh ⊢
        omega
      · have hdrop : appendHistory h r = h ++ [r] := by
          unfold appendHistory
          dsimp only
          rw [if_neg hlen]
        rw [hdrop]
        simp [List.append_assoc]

lemma linWeights_one : linWeights 1 = [1/2] := rfl

lemma linWeights_two : linWeights 2 = [1/2, 1] := by
  norm_num [linWeights, List.range_succ]

/-- Claim C1, counterexample: a session that entered Tracking at time 4 (trace
start(1), then a frame at 4 whose raw decision is not-focused) has effective
focused plus unfocused seconds equal to 0 when queried at time 10, not the
wall-clock 10 − 4 = 6 elapsed since tracking began: no interval is opened when
tracking starts, so time before the first smoothed transition is accounted to
neither total. -/
theorem C1_counterexample :
    (runOps [Op.start 1, Op.frame 4 false]).map
        (fun s => (s.tracking_state, s.session_start_time,
          effectiveTotal s 10)) =
      some (TrackingState.tracking, some 4, 0) ∧ (0 : ℚ) ≠ 10 - 4 := by
  norm_num [runOps, runOpsFrom, applyOp, Option.getD, ClientSession.init,
    start_session_update, stop_session_update, process_frame_update,
    update_focus_state, appendHistory, weightedAverage, linWeights_one,
    linWeights_two, focus_history_size, countdown_duration, effectiveTotal,
    effectiveFocused, effectiveUnfocused, get_session_metrics,
    stop_session_result, sessionOpenFocus, sessionStopped]

/-- Claim C1, amended: the conservation law holds relative to the first
smoothed-state transition, not to the start of tracking.  From any session
state whose accumulators are zero and which has an interval open since `t1`
(the state right after the first transition), every further sequence of
frame, stop, and status operations preserves the metrics query's effective
total: at query time `q` it equals `q − t1`.  Before the first transition both
effective totals are 0. -/
theorem C1_amended {s s' : ClientSession} {t1 : ℚ} (ops : List Op) (q : ℚ)
    (hg : goodIntervals s)
    (hopen : s.current_focus_session_start = some t1 ∨
      s.current_unfocus_session_start = some t1)
    (haccf : s.accumulated_focused_time = 0)
    (haccu : s.accumulated_unfocused_time = 0)
    (hns : ∀ t : ℚ, Op.start t ∉ ops)
    (hrun : runOpsFrom s ops = some s') :
    effectiveTotal s' q = q - t1 := by
  have hbase : effectiveTotal s q = q - t1 := by
    rcases hopen with hF | hU
    · cases hb : s.is_focused with
      | false =>
          rw [hg.2 hb] at hF
          exact Option.noConfusion hF
      | true =>
          have hu := hg.1 hb
          simp only [effectiveTotal, effectiveFocused, effectiveUnfocused, hF,
            hu, haccf, haccu]
          ring
    · cases hb : s.is_focused with
      | true =>
          rw [hg.1 hb] at hU
          exact Option.noConfusion hU
      | false =>
          have hf := hg.2 hb
          simp only [effectiveTotal, effectiveFocused, effectiveUnfocused, hU,
            hf, haccf, haccu]
          ring
  have ho : hasOpen s := by
    rcases hopen with hF | hU
    · exact Or.inl (by simp [hF])
    · exact Or.inr (by simp [hU])
  rw [runOpsFrom_effectiveTotal q hg ho hns hrun, hbase]

/-- Claim C1, witness: concrete run of the amended conservation law, from the
state reached by start(1), frame(4, true) — focus interval open at 4,
accumulators zero — through frame(6, false) and stop, queried at 10: the
effective total is 10 − 4. -/
theorem C1_amended_witness : effectiveTotal sessionStopped 10 = 10 - 4 :=
  @C1_amended sessionOpenFocus sessionStopped 4 [Op.frame 6 false, Op.stop] 10
    (by decide) (Or.inl rfl) rfl rfl
    (by intro t ht; simp [List.mem_cons] at ht)
    (by norm_num [runOps, runOpsFrom, applyOp, Option.getD, ClientSession.init,
    start_session_update, stop_session_update, process_frame_update,
    update_focus_state, appendHistory, weightedAverage, linWeights_one,
    linWeights_two, focus_history_size, countdown_duration, effectiveTotal,
    effectiveFocused, effectiveUnfocused, get_session_metrics,
    stop_session_result, sessionOpenFocus, sessionStopped])

/-- Claim C2: after every smoother update, the stored smoothed focus state
equals the weighted average of the post-append bounded history — weights
`np.linspace 0.5 1.0 n`, increasing linearly from 0.5 on the oldest entry to
1.0 on the newest — compared strictly greater than 0.6; the history stored is
exactly the appended-and-bounded one. -/
theorem C2_smoother (s : ClientSession) (raw : Bool) (now : ℚ) :
    (update_focus_state s raw now).focus_history =
        appendHistory s.focus_history raw ∧
    (update_focus_state s raw now).is_focused =
      decide (weightedAverage (appendHistory s.focus_history raw) > 3/5) :=
  ⟨ufs_focus_history s raw now, update_focus_state_is_focused s raw now⟩

/-- Claim C3, counterexample: stopping the session reached by start(1),
frame(4, true) — which has a focus interval open since 4 — leaves
`current_focus_session_start` still set to 4 (not cleared) and the focused
accumulator still 0 (the open interval's elapsed time is not folded in), so
stop does not finalize the open interval as the claim states. -/
theorem C3_counterexample :
    (runOps [Op.start 1, Op.frame 4 true]).map
        (fun s => ((stop_session_update s).current_focus_session_start,
          (stop_session_update s).accumulated_focused_time,
          (stop_session_update s).tracking_state)) =
      some (some 4, 0, TrackingState.stopped) ∧
    (some (4 : ℚ) : Option ℚ) ≠ none := by
  refine ⟨?_, fun h => Option.noConfusion h⟩
  norm_num [runOps, runOpsFrom, applyOp, Option.getD, ClientSession.init,
    start_session_update, stop_session_update, process_frame_update,
    update_focus_state, appendHistory, weightedAverage, linWeights_one,
    linWeights_two, focus_history_size, countdown_duration, effectiveTotal,
    effectiveFocused, effectiveUnfocused, get_session_metrics,
    stop_session_result, sessionOpenFocus, sessionStopped]

/-- Claim C3, amended: stop transitions any existing session to Stopped and
returns a metrics snapshot in which the open interval's elapsed time — for
either kind of open interval, focus or unfocus — is included in the matching
total using now as the end bound, but it neither adds that elapsed time into
the matching accumulator nor clears either open-interval start field: both
accumulators and both interval fields are left exactly as they were, so the
interval stays open. -/
theorem C3_amended (s : ClientSession) (now a : ℚ)
    (h : s.current_focus_session_start = some a ∨
      s.current_unfocus_session_start = some a) :
    (stop_session_update s).tracking_state = .stopped ∧
    (stop_session_update s).accumulated_focused_time =
      s.accumulated_focused_time ∧
    (stop_session_update s).accumulated_unfocused_time =
      s.accumulated_unfocused_time ∧
    (stop_session_update s).current_focus_session_start =
      s.current_focus_session_start ∧
    (stop_session_update s).current_unfocus_session_start =
      s.current_unfocus_session_start ∧
    ((s.current_focus_session_start = some a ∧
        (stop_session_result (some s) now).map Metrics.focused_time =
          some (s.accumulated_focused_time + (now - a))) ∨
      (s.current_unfocus_session_start = some a ∧
        (stop_session_result (some s) now).map Metrics.unfocused_time =
          some (s.accumulated_unfocused_time + (now - a)))) := by
  refine ⟨rfl, rfl, rfl, rfl, rfl, ?_⟩
  rcases h with hF | hU
  · refine Or.inl ⟨hF, ?_⟩
    simp only [stop_session_result, Option.map_some', get_session_metrics,
      effectiveFocused, stop_session_update, hF]
  · refine Or.inr ⟨hU, ?_⟩
    simp only [stop_session_result, Option.map_some', get_session_metrics,
      effectiveUnfocused, stop_session_update, hU]

/-- Claim C3, witness: stopping the concrete session with a focus interval
open since 4, queried at 10, returns focused seconds 0 + (10 − 4) while the
session keeps both interval fields and both accumulators unchanged. -/
theorem C3_amended_witness :
    (stop_session_update sessionOpenFocus).tracking_state = .stopped ∧
    (stop_session_update sessionOpenFocus).accumulated_focused_time =
      sessionOpenFocus.accumulated_focused_time ∧
    (stop_session_update sessionOpenFocus).accumulated_unfocused_time =
      sessionOpenFocus.accumulated_unfocused_time ∧
    (stop_session_update sessionOpenFocus).current_focus_session_start =
      sessionOpenFocus.current_focus_session_start ∧
    (stop_session_update sessionOpenFocus).current_unfocus_session_start =
      sessionOpenFocus.current_unfocus_session_start ∧
    ((sessionOpenFocus.current_focus_session_start = some 4 ∧
        (stop_session_result (some sessionOpenFocus) 10).map
            Metrics.focused_time =
          some (sessionOpenFocus.accumulated_focused_time + (10 - 4))) ∨
      (sessionOpenFocus.current_unfocus_session_start = some 4 ∧
        (stop_session_result (some sessionOpenFocus) 10).map
            Metrics.unfocused_time =
          some (sessionOpenFocus.accumulated_unfocused_time + (10 - 4)))) :=
  C3_amended sessionOpenFocus 10 4 (Or.inl rfl)

/-- Claim C4, counterexample: Stopped is not terminal — after start(1) and
stop, the session is Stopped, yet a later start(7) moves it back to
Countdown. -/
theorem C4_counterexample :
    (runOps [Op.start 1, Op.stop]).map ClientSession.tracking_state =
        some TrackingState.stopped ∧
    (runOps [Op.start 1, Op.stop, Op.start 7]).map
        ClientSession.tracking_state = some TrackingState.countdown := by
  norm_num [runOps, runOpsFrom, applyOp, Option.getD, ClientSession.init,
    start_session_update, stop_session_update, process_frame_update,
    update_focus_state, appendHistory, weightedAverage, linWeights_one,
    linWeights_two, focus_history_size, countdown_duration, effectiveTotal,
    effectiveFocused, effectiveUnfocused, get_session_metrics,
    stop_session_result, sessionOpenFocus, sessionStopped]

/-- Claim C4, amended: for every reachable session, frame processing and stop
keep a Stopped session Stopped and a session only becomes Tracking from
Countdown (or stays Tracking); but Stopped is terminal only for those
operations — `start_session` re-arms any existing session, Stopped included,
into Countdown. -/
theorem C4_amended (ops : List Op) (s : ClientSession) (now : ℚ) (raw : Bool)
    (h : runOps ops = some s) :
    (start_session_update s now).tracking_state = .countdown ∧
    (s.tracking_state = .stopped →
      (process_frame_update s raw now).tracking_state = .stopped ∧
      (stop_session_update s).tracking_state = .stopped) ∧
    ((process_frame_update s raw now).tracking_state = .tracking →
      s.tracking_state = .countdown ∨ s.tracking_state = .tracking) := by
  obtain ⟨hg, hsi, hac, hh⟩ := runOps_Inv h
  refine ⟨rfl, ?_, ?_⟩
  · intro hstop
    exact ⟨process_frame_update_stopped hsi hstop raw now, rfl⟩
  · intro htr
    rcases process_frame_update_state s raw now with hst | ⟨_, hca⟩
    · rw [hst] at htr
      exact Or.inr htr
    · exact Or.inl (hac hca)

/-- Claim C4, witness: the amended lifecycle facts evaluated on the concrete
tracking session reached by start(1), frame(4, true), at time 9 with a
not-focused frame. -/
theorem C4_amended_witness :
    (start_session_update sessionOpenFocus 9).tracking_state = .countdown ∧
    (sessionOpenFocus.tracking_state = .stopped →
      (process_frame_update sessionOpenFocus false 9).tracking_state =
        .stopped ∧
      (stop_session_update sessionOpenFocus).tracking_state = .stopped) ∧
    ((process_frame_update sessionOpenFocus false 9).tracking_state =
        .tracking →
      sessionOpenFocus.tracking_state = .countdown ∨
        sessionOpenFocus.tracking_state = .tracking) :=
  C4_amended [Op.start 1, Op.frame 4 true] sessionOpenFocus 9 false
    (by norm_num [runOps, runOpsFrom, applyOp, Option.getD, ClientSession.init,
    start_session_update, stop_session_update, process_frame_update,
    update_focus_state, appendHistory, weightedAverage, linWeights_one,
    linWeights_two, focus_history_size, countdown_duration, effectiveTotal,
    effectiveFocused, effectiveUnfocused, get_session_metrics,
    stop_session_result, sessionOpenFocus, sessionStopped])

/-- Claim C5, counterexample: the accumulators are not monotone across every
operation — after start(1), frame(4, true), frame(6, false) the focused
accumulator is 2, and a further start(7) resets it to 0. -/
theorem C5_counterexample :
    (runOps [Op.start 1, Op.frame 4 true, Op.frame 6 false]).map
        (fun s => s.accumulated_focused_time) = some 2 ∧
    (runOps [Op.start 1, Op.frame 4 true, Op.frame 6 false, Op.start 7]).map
        (fun s => s.accumulated_focused_time) = some 0 ∧
    ¬ (2 : ℚ) ≤ 0 := by
  norm_num [runOps, runOpsFrom, applyOp, Option.getD, ClientSession.init,
    start_session_update, stop_session_update, process_frame_update,
    update_focus_state, appendHistory, weightedAverage, linWeights_one,
    linWeights_two, focus_history_size, countdown_duration, effectiveTotal,
    effectiveFocused, effectiveUnfocused, get_session_metrics,
    stop_session_result, sessionOpenFocus, sessionStopped]

/-- Claim C5, amended: both accumulators are non-decreasing under frame
processing (given that open intervals started at or before the frame's time,
as wall-clock monotonicity guarantees), and are left exactly unchanged by
stop; the metrics query is pure and mutates nothing; but `start_session`
resets both accumulators to zero, so monotonicity does not extend to start. -/
theorem C5_amended (s : ClientSession) (now q : ℚ) (raw : Bool)
    (hf : openBefore s.current_focus_session_start now)
    (hu : openBefore s.current_unfocus_session_start now) :
    (s.accumulated_focused_time ≤
        (process_frame_update s raw now).accumulated_focused_time ∧
      s.accumulated_unfocused_time ≤
        (process_frame_update s raw now).accumulated_unfocused_time) ∧
    ((stop_session_update s).accumulated_focused_time =
        s.accumulated_focused_time ∧
      (stop_session_update s).accumulated_unfocused_time =
        s.accumulated_unfocused_time) ∧
    ((start_session_update s q).accumulated_focused_time = 0 ∧
      (start_session_update s q).accumulated_unfocused_time = 0) :=
  ⟨process_frame_update_acc_mono now hf hu raw, ⟨rfl, rfl⟩, ⟨rfl, rfl⟩⟩

/-- Claim C5, witness: the amended monotonicity facts evaluated on the
concrete session with a focus interval open since 4, for a frame at time 6
and a restart at time 7. -/
theorem C5_amended_witness :
    (sessionOpenFocus.accumulated_focused_time ≤
        (process_frame_update sessionOpenFocus false 6).accumulated_focused_time ∧
      sessionOpenFocus.accumulated_unfocused_time ≤
        (process_frame_update sessionOpenFocus false 6).accumulated_unfocused_time) ∧
    ((stop_session_update sessionOpenFocus).accumulated_focused_time =
        sessionOpenFocus.accumulated_focused_time ∧
      (stop_session_update sessionOpenFocus).accumulated_unfocused_time =
        sessionOpenFocus.accumulated_unfocused_time) ∧
    ((start_session_update sessionOpenFocus 7).accumulated_focused_time = 0 ∧
      (start_session_update sessionOpenFocus 7).accumulated_unfocused_time = 0) :=
  C5_amended sessionOpenFocus 6 7 false (by decide) (by decide)

/-- Claim C6, counterexample: after start(1) and a first stop, the session is
Stopped but still present in the registry, and a second stop returns another
metrics snapshot (`isSome`), not a not-found result. -/
theorem C6_counterexample :
    (runOps [Op.start 1, Op.stop]).map ClientSession.tracking_state =
        some TrackingState.stopped ∧
    (stop_session_result (runOps [Op.start 1, Op.stop]) 10).isSome = true := by
  norm_num [runOps, runOpsFrom, applyOp, Option.getD, ClientSession.init,
    start_session_update, stop_session_update, process_frame_update,
    update_focus_state, appendHistory, weightedAverage, linWeights_one,
    linWeights_two, focus_history_size, countdown_duration, effectiveTotal,
    effectiveFocused, effectiveUnfocused, get_session_metrics,
    stop_session_result, sessionOpenFocus, sessionStopped]

/-- Claim C6, amended: `stop_session` reports not-found exactly when the
session id is absent from the registry; stopping never removes the session,
so a second stop on an existing Stopped session returns another metrics
snapshot rather than not-found. -/
theorem C6_amended (s : ClientSession) (now : ℚ) :
    stop_session_result none now = none ∧
    (stop_session_result (some s) now).isSome = true ∧
    applyOp (some s) Op.stop = some (stop_session_update s) :=
  ⟨rfl, rfl, rfl⟩

/-- Claim C7, counterexample: re-starting at time 7 the session reached by
start(1), frame(4, true) resets the accumulators and history and enters
Countdown, but the open focus interval from time 4 is still set (the claim
says no open interval remains), and `is_focused`/`is_tracking` also keep
their old values. -/
theorem C7_counterexample :
    (runOps [Op.start 1, Op.frame 4 true, Op.start 7]).map
        (fun s => (s.tracking_state, s.countdown_start_time,
          s.accumulated_focused_time, s.focus_history,
          s.current_focus_session_start, s.is_focused, s.is_tracking)) =
      some (TrackingState.countdown, some 7, 0, ([] : List Bool), some 4,
        true, true) ∧
    (some (4 : ℚ) : Option ℚ) ≠ none := by
  refine ⟨?_, fun h => Option.noConfusion h⟩
  norm_num [runOps, runOpsFrom, applyOp, Option.getD, ClientSession.init,
    start_session_update, stop_session_update, process_frame_update,
    update_focus_state, appendHistory, weightedAverage, linWeights_one,
    linWeights_two, focus_history_size, countdown_duration, effectiveTotal,
    effectiveFocused, effectiveUnfocused, get_session_metrics,
    stop_session_result, sessionOpenFocus, sessionStopped]

/-- Claim C7, amended: starting an existing session re-arms it into Countdown
with countdown-start = now and resets both accumulators and the raw-focus
history to empty, but leaves the open-interval start fields, the smoothed
focus flag and the tracking flag untouched. -/
theorem C7_amended (s : ClientSession) (now : ℚ) :
    (start_session_update s now).tracking_state = .countdown ∧
    (start_session_update s now).countdown_active = true ∧
    (start_session_update s now).countdown_start_time = some now ∧
    (start_session_update s now).accumulated_focused_time = 0 ∧
    (start_session_update s now).accumulated_unfocused_time = 0 ∧
    (start_session_update s now).focus_history = [] ∧
    (start_session_update s now).current_focus_session_start =
      s.current_focus_session_start ∧
    (start_session_update s now).current_unfocus_session_start =
      s.current_unfocus_session_start ∧
    (start_session_update s now).is_focused = s.is_focused ∧
    (start_session_update s now).is_tracking = s.is_tracking :=
  ⟨rfl, rfl, rfl, rfl, rfl, rfl, rfl, rfl, rfl, rfl⟩

/-- Claim C8: the per-frame gaze classification agrees everywhere with the
spec's policy — no pupils or unavailable ratio means not focused, blinking
means not focused, both distances from screen center below 0.2 means focused,
both below 0.3 means focused iff the drawn uniform sample exceeds 0.3, and
anything else means not focused; the function is stateless, a pure function
of the frame's signal and the drawn sample. -/
theorem C8_classifier (pupils_located : Bool) (hr vr : Option ℚ)
    (blinking : Bool) (rand : ℚ) :
    analyze_gaze pupils_located hr vr blinking rand =
      classifierSpec pupils_located hr vr blinking rand := by
  cases pupils_located <;> cases blinking <;> cases hr <;> cases vr <;>
    simp [analyze_gaze, classifierSpec]

/-- Claim C9: for every reachable session, at most one of the two
open-interval start fields is set. -/
theorem C9_at_most_one_open (ops : List Op) (s : ClientSession)
    (h : runOps ops = some s) :
    s.current_focus_session_start = none ∨
      s.current_unfocus_session_start = none := by
  obtain ⟨⟨g1, g2⟩, _, _, _⟩ := runOps_Inv h
  cases hb : s.is_focused with
  | true => exact Or.inr (g1 hb)
  | false => exact Or.inl (g2 hb)

/-- Claim C9, witness: the invariant evaluated on the session reached by
start(1), frame(4, true), whose focus interval is open and unfocus interval
is not. -/
theorem C9_witness :
    sessionOpenFocus.current_focus_session_start = none ∨
      sessionOpenFocus.current_unfocus_session_start = none :=
  C9_at_most_one_open [Op.start 1, Op.frame 4 true] sessionOpenFocus
    (by norm_num [runOps, runOpsFrom, applyOp, Option.getD, ClientSession.init,
    start_session_update, stop_session_update, process_frame_update,
    update_focus_state, appendHistory, weightedAverage, linWeights_one,
    linWeights_two, focus_history_size, countdown_duration, effectiveTotal,
    effectiveFocused, effectiveUnfocused, get_session_metrics,
    stop_session_result, sessionOpenFocus, sessionStopped])

/-- Claim C10: each smoother update stores exactly the appended-and-bounded
history, and feeding any raw sequence into the append step from the empty
history keeps exactly the most recent 15 entries in order — the length never
exceeds the capacity 15 and the oldest entries are evicted first. -/
theorem C10_history_fifo (rs : List Bool) (s : ClientSession) (raw : Bool)
    (now : ℚ) :
    (update_focus_state s raw now).focus_history =
        appendHistory s.focus_history raw ∧
    List.foldl appendHistory [] rs =
        rs.drop (rs.length - focus_history_size) ∧
    (List.foldl appendHistory [] rs).length ≤ focus_history_size := by
  have h := foldl_appendHistory rs [] (by simp)
  simp only [List.nil_append] at h
  refine ⟨ufs_focus_history s raw now, h, ?_⟩
  rw [h]
  simp only [List.length_drop]
  omega

end EyeTrack
